import Mathlib

/-!
# Verification of the ENTSOE parser module (src/parsers/ENTSOE.py)

Shallow embedding of the time-series reconciliation layer of the ENTSOE
parser: resolution-based timestamp reconstruction, the per-timestamp series
merger, the per-data-type decoders, category aggregation, validation, and
the assembly logic of the public fetch operations.

Modelling conventions:
* Instants (arrow objects / datetimes) are `Int` seconds since an epoch.
  `arrow.replace(minutes=n)` becomes `+ 60 * n`; comparison and subtraction
  are the integer ones.
* Python `float` quantities are modelled as `ℚ` (exact arithmetic) in the
  decoders and assemblers, whose verified properties do not hinge on
  rounding.  Where a property does hinge on rounding — order dependence of
  same-timestamp float accumulation — a second model of the merge loop over
  integer-valued IEEE binary64 doubles with correctly rounded addition is
  used (`fpAdd`, `mergePointFP`).
* A raw XML response already parsed by the external XML library
  (BeautifulSoup) is modelled as a `Document`: the list of its `timeseries`
  elements with the fields the decoders read.  An absent / falsy response
  (`None` or empty text) is `Option.none`.
* Python exceptions become `Except String`; the carried string is the
  exception message.
* Python `dict` objects keyed by instants are modelled as association lists
  with last-assignment-wins lookup.
-/

/-- A `point` element of a `timeseries`: 1-based `position` plus the
`quantity` (consumption / production / exchange / forecast decoders) and
`price.amount` (price decoder) values. -/
structure Point where
  position : Int
  quantity : ℚ
  priceAmount : ℚ
  deriving DecidableEq

/-- A `timeseries` element: its `resolution` string, its `start` instant,
whether an `inBiddingZone_Domain.mRID` element is present (production
decoder), and its `currency_unit.name` (price decoder). -/
structure TimeSeries where
  resolution : String
  start : Int
  inBiddingZoneDomain : Bool
  currency : String
  points : List Point
  deriving DecidableEq

/-- A parsed XML document: the list of its `timeseries` elements. -/
abbrev Document := List TimeSeries

/-! ## Resolution Clock: `datetime_from_position` -/

/-- Decimal digits to a natural number (`int(m.group(1))`). -/
def natOfDigits (ds : List Char) : Nat :=
  ds.foldl (fun a c => 10 * a + (c.toNat - 48)) 0

/-- Embedding of `re.search('PT(\d+)([M])', resolution)`: scan for the
leftmost occurrence of `PT` followed by a non-empty digit run followed by
`M`, returning the digit run's value.  Backtracking of the greedy `\d+`
never helps here (a shortened digit run ends in a digit, not `M`), so
taking the maximal digit run is equivalent to the regex. -/
def findPTMinutes : List Char → Option Nat
  | 'P' :: 'T' :: rest =>
      let ds := rest.takeWhile (fun c => c.isDigit)
      if ds.isEmpty then findPTMinutes ('T' :: rest)
      else
        match (rest.dropWhile (fun c => c.isDigit)).head? with
        | some 'M' => some (natOfDigits ds)
        | _ => findPTMinutes ('T' :: rest)
  | _ :: cs => findPTMinutes cs
  | [] => none

/-- Embedding of `datetime_from_position(start, position, resolution)`:
on a minute-based resolution spec returns
`start.replace(minutes=position * digits)`; otherwise raises
`NotImplementedError('Could not recognise resolution %s' % resolution)`.
(The source's `if scale == 'M'` test is always true because the second
regex group is the literal class `[M]`.) -/
def datetime_from_position (start : Int) (position : Int) (resolution : String) :
    Except String Int :=
  match findPTMinutes resolution.toList with
  | some digits => .ok (start + 60 * (position * (digits : Int)))
  | none => .error ("Could not recognise resolution " ++ resolution)

/-! ## `closest_in_time_key`

`np.abs((x[datetime_key] - target_datetime).seconds)`: the `seconds`
attribute of a Python `timedelta` is its floor-remainder modulo one day
(`0 ≤ seconds < 86400`, the sign being absorbed into `days`), which for
instants in whole seconds is `(dt - target) % 86400` with Python's
floor-signed `%`, i.e. `Int.emod` against the positive modulus. -/

/-- Embedding of `closest_in_time_key(x, target_datetime)` on the record's
instant. -/
def closest_in_time_key (dt target : Int) : Int :=
  |(dt - target).emod 86400|

/-! ## Series Merger

`parse_production` / `parse_exchange` keep two parallel lists
`quantities` (resp. `productions`) and `datetimes`; for each decoded point
they run `i = datetimes.index(datetime); quantities[i] += quantity` and on
`ValueError` append to both lists.  `mergePoint` is that first-match linear
search with in-place addition, written as simultaneous recursion over the
two parallel lists. -/

/-- One merge step: add `q` at the first occurrence of `dt` in the
datetime list, else append `(q, dt)` to both lists.  Addition here is
exact (`ℚ`), idealizing the program's float `+=`; the float-accurate
variant of this step is `mergePointFP` below. -/
def mergePoint : List ℚ → List Int → Int → ℚ → List ℚ × List Int
  | q₀ :: qs, d₀ :: dts, dt, q =>
      if d₀ == dt then ((q₀ + q) :: qs, d₀ :: dts)
      else
        let r := mergePoint qs dts dt q
        (q₀ :: r.1, d₀ :: r.2)
  | qs, dts, dt, q => (qs ++ [q], dts ++ [dt])

/-- Merge a list of decoded `(datetime, quantity)` points, left to right,
into the accumulator state (the source's per-point loop body). -/
def mergePoints (ps : List (Int × ℚ)) (st : List ℚ × List Int) : List ℚ × List Int :=
  ps.foldl (fun st p => mergePoint st.1 st.2 p.1 p.2) st

/-- The timestamp-to-value mapping denoted by a merger state: the value at
the first occurrence of `dt` in the datetime list, absence otherwise. -/
def lookupVal : List ℚ × List Int → Int → Option ℚ
  | (q₀ :: qs, d₀ :: dts), dt => if d₀ == dt then some q₀ else lookupVal (qs, dts) dt
  | _, _ => none

/-- Sum of the quantities of the points of `ps` landing on instant `dt`. -/
def sumAt (ps : List (Int × ℚ)) (dt : Int) : ℚ :=
  ((ps.filter (fun p => p.1 == dt)).map (fun p => p.2)).sum

/-- Whether some point of `ps` lands on instant `dt`. -/
def memAt (ps : List (Int × ℚ)) (dt : Int) : Bool :=
  ps.any (fun p => p.1 == dt)

/-! ### The program's float accumulation

The `ℚ`-valued merger above idealizes `quantities[i] += quantity` as exact
addition.  The program accumulates Python `float`s (IEEE binary64), whose
addition rounds, so the per-timestamp aggregate can depend on the merge
order.  To settle that question on the program's own arithmetic, the
definitions below repeat the same merge loop over integer-valued doubles
(every integer of magnitude below `2^53` ulp-scaled is exactly
representable, and our inputs are such values), with addition rounded to
nearest, ties to even — exactly IEEE binary64 addition on these values. -/

/-- Smallest `k` with `n / 2^k < 2^53` (position of the unit in the last
place of the binary64 value nearest to the integer `n`), computed with a
structural fuel argument so the kernel can evaluate it; `fuel` only needs
to exceed the bit length of `n`. -/
def fpUlpExp : Nat → Nat → Nat
  | 0, _ => 0
  | fuel + 1, n => if n < 2 ^ 53 then 0 else fpUlpExp fuel (n / 2) + 1

/-- Round an integer to the nearest IEEE binary64 value (round to nearest,
ties to even), for magnitudes within the double range: keep the top 53
significand bits, rounding the remainder, symmetrically in the sign. -/
def roundDouble (n : Int) : Int :=
  let a := n.natAbs
  let k := fpUlpExp 1100 a
  let u := 2 ^ k
  let q := a / u
  let r := a % u
  let q2 :=
    if 2 * r < u then q
    else if 2 * r > u then q + 1
    else if q % 2 = 0 then q else q + 1
  n.sign * ((q2 * u : Nat) : Int)

/-- IEEE binary64 addition on integer-valued doubles: the exact sum,
rounded (`quantities[i] += quantity` on Python floats holding these
values). -/
def fpAdd (x y : Int) : Int := roundDouble (x + y)

/-- The merge step of `parse_production` / `parse_exchange` with the
program's float addition instead of exact addition (quantities are
integer-valued doubles). -/
def mergePointFP : List Int → List Int → Int → Int → List Int × List Int
  | q₀ :: qs, d₀ :: dts, dt, q =>
      if d₀ == dt then (fpAdd q₀ q :: qs, d₀ :: dts)
      else
        let r := mergePointFP qs dts dt q
        (q₀ :: r.1, d₀ :: r.2)
  | qs, dts, dt, q => (qs ++ [q], dts ++ [dt])

/-- Merge a list of decoded points, left to right, with float addition. -/
def mergePointsFP (ps : List (Int × Int)) (st : List Int × List Int) :
    List Int × List Int :=
  ps.foldl (fun st p => mergePointFP st.1 st.2 p.1 p.2) st

/-- The timestamp-to-value mapping of a float-valued merger state, on its
parallel quantity and datetime lists. -/
def lookupValFP : List Int → List Int → Int → Option Int
  | q₀ :: qs, d₀ :: dts, dt =>
      if d₀ == dt then some q₀ else lookupValFP qs dts dt
  | _, _, _ => none

/-! ## Response Decoder -/

/-- Left-to-right effectful map over `Except`: apply `f` to each element,
propagating the first raised error (the decoders' sequential loops, which
raise at the first bad element). -/
def exceptMapList {α β : Type} (f : α → Except String β) :
    List α → Except String (List β)
  | [] => .ok []
  | a :: as =>
      match f a with
      | .error e => .error e
      | .ok b =>
          match exceptMapList f as with
          | .error e => .error e
          | .ok bs => .ok (b :: bs)

/-- Resolved `(datetime, quantity)` points of one `timeseries` (the
decoders' inner loop over `point` elements, reading `quantity`). -/
def seriesQuantityPoints (ts : TimeSeries) : Except String (List (Int × ℚ)) :=
  exceptMapList (fun p =>
    (datetime_from_position ts.start p.position ts.resolution).map
      fun dt => (dt, p.quantity)) ts.points

/-- Embedding of `parse_consumption(xml_text)`: `None` on an absent / falsy
document, otherwise the flat `(quantities, datetimes)` pair of all points of
all `timeseries` elements in document order. -/
def parse_consumption (xml : Option Document) :
    Except String (Option (List ℚ × List Int)) :=
  match xml with
  | none => .ok none
  | some doc =>
      (exceptMapList seriesQuantityPoints doc).map fun pss =>
        some ((pss.flatten.map fun p => p.2), pss.flatten.map fun p => p.1)

/-- Resolved, sign-adjusted points of one production `timeseries`:
outflow series (no `inBiddingZone_Domain.mRID` element) contribute with
quantity negated (`productions[i] -= quantity` / append `-1 * quantity`). -/
def prodSeriesPoints (ts : TimeSeries) : Except String (List (Int × ℚ)) :=
  exceptMapList (fun p =>
    (datetime_from_position ts.start p.position ts.resolution).map
      fun dt => (dt, if ts.inBiddingZoneDomain then p.quantity else -p.quantity))
    ts.points

/-- Embedding of `parse_production(xml_text)`: `None` on an absent / falsy
document, otherwise the same-timestamp merge (addition for inflow series,
subtraction for outflow series) of all points, as the parallel
`(productions, datetimes)` lists. -/
def parse_production (xml : Option Document) :
    Except String (Option (List ℚ × List Int)) :=
  match xml with
  | none => .ok none
  | some doc =>
      (exceptMapList prodSeriesPoints doc).map fun pss =>
        some (mergePoints pss.flatten ([], []))

/-- Resolved, sign-adjusted points of one exchange `timeseries`: the
quantity is negated when `is_import` is false. -/
def exchSeriesPoints (isImport : Bool) (ts : TimeSeries) :
    Except String (List (Int × ℚ)) :=
  exceptMapList (fun p =>
    (datetime_from_position ts.start p.position ts.resolution).map
      fun dt => (dt, if isImport then p.quantity else -p.quantity)) ts.points

/-- Embedding of `parse_exchange(xml_text, is_import, quantities, datetimes)`:
`None` on an absent / falsy document, otherwise the same-timestamp additive
merge of all sign-adjusted points into the caller-supplied accumulator lists
(the source's `quantities or []` defaulting is the callers passing `[]`). -/
def parse_exchange (xml : Option Document) (isImport : Bool)
    (quantities : List ℚ) (datetimes : List Int) :
    Except String (Option (List ℚ × List Int)) :=
  match xml with
  | none => .ok none
  | some doc =>
      (exceptMapList (exchSeriesPoints isImport) doc).map fun pss =>
        some (mergePoints pss.flatten (quantities, datetimes))

/-- Resolved points of one price `timeseries`: `(price.amount, currency,
datetime)` with the enclosing series' currency repeated per point. -/
def priceSeriesPoints (ts : TimeSeries) :
    Except String (List (ℚ × String × Int)) :=
  exceptMapList (fun p =>
    (datetime_from_position ts.start p.position ts.resolution).map
      fun dt => (p.priceAmount, ts.currency, dt)) ts.points

/-- Embedding of `parse_price(xml_text)`: `None` on an absent / falsy
document, otherwise the parallel `(prices, currencies, datetimes)` lists. -/
def parse_price (xml : Option Document) :
    Except String (Option (List ℚ × List String × List Int)) :=
  match xml with
  | none => .ok none
  | some doc =>
      (exceptMapList priceSeriesPoints doc).map fun pss =>
        some ((pss.flatten.map fun p => p.1), (pss.flatten.map fun p => p.2.1),
              pss.flatten.map fun p => p.2.2)

/-- Embedding of `parse_generation_forecast(xml_text)`: `None` on an absent
/ falsy document, otherwise the flat `(values, datetimes)` pair. -/
def parse_generation_forecast (xml : Option Document) :
    Except String (Option (List ℚ × List Int)) :=
  match xml with
  | none => .ok none
  | some doc =>
      (exceptMapList seriesQuantityPoints doc).map fun pss =>
        some ((pss.flatten.map fun p => p.2), pss.flatten.map fun p => p.1)

/-- Embedding of `parse_consumption_forecast(xml_text)`: `None` on an
absent / falsy document, otherwise the flat `(values, datetimes)` pair. -/
def parse_consumption_forecast (xml : Option Document) :
    Except String (Option (List ℚ × List Int)) :=
  match xml with
  | none => .ok none
  | some doc =>
      (exceptMapList seriesQuantityPoints doc).map fun pss =>
        some ((pss.flatten.map fun p => p.2), pss.flatten.map fun p => p.1)

/-! ## `check_response` -/

/-- Whether `pat` begins `s` (character lists). -/
def startsWithChars : List Char → List Char → Bool
  | [], _ => true
  | _ :: _, [] => false
  | p :: ps, c :: cs => p == c && startsWithChars ps cs

/-- Whether `pat` occurs contiguously inside `s` (character lists). -/
def containsChars (pat : List Char) : List Char → Bool
  | [] => startsWithChars pat []
  | c :: cs => startsWithChars pat (c :: cs) || containsChars pat cs

/-- Python's substring test `pat in hay`. -/
def strContains (hay pat : String) : Bool :=
  containsChars pat.toList hay.toList

/-- Embedding of `check_response(response, function_name)`.  The `text`
elements found in the response are modelled by their (prettified) string
contents, in document order.  No `text` element: return silently.  First
`text` element containing `'No matching data found'`: return silently.
Otherwise raise
`QueryError('{function_name} failed in ENTSOE.py. Reason: {error_text}')`
with the first element's text. -/
def check_response (textElements : List String) (functionName : String) :
    Except String Unit :=
  match textElements with
  | [] => .ok ()
  | t :: _ =>
      if strContains t "No matching data found" then .ok ()
      else .error (functionName ++ " failed in ENTSOE.py. Reason: " ++ t)

/-! ## Category aggregation (`get_*` helper functions)

The raw per-label map `values` (a Python dict from generation-type labels
to floats) is an association list; `hasKey` is the dict membership test
`label in values` and `getD0` is `values.get(label, 0)`. -/

/-- Python `label in values`. -/
def hasKey (values : List (String × ℚ)) (label : String) : Bool :=
  (values.lookup label).isSome

/-- Python `values.get(label, 0)`. -/
def getD0 (values : List (String × ℚ)) (label : String) : ℚ :=
  (values.lookup label).getD 0

/-- Embedding of `get_biomass(values)` (implicit `None` when no branch
taken). -/
def get_biomass (values : List (String × ℚ)) : Option ℚ :=
  if hasKey values "Biomass" || hasKey values "Fossil Peat" ||
      hasKey values "Waste" then
    some (getD0 values "Biomass" + getD0 values "Fossil Peat" +
      getD0 values "Waste")
  else none

/-- Embedding of `get_coal(values)`. -/
def get_coal (values : List (String × ℚ)) : Option ℚ :=
  if hasKey values "Fossil Brown coal/Lignite" ||
      hasKey values "Fossil Hard coal" then
    some (getD0 values "Fossil Brown coal/Lignite" +
      getD0 values "Fossil Hard coal")
  else none

/-- Embedding of `get_gas(values)`. -/
def get_gas (values : List (String × ℚ)) : Option ℚ :=
  if hasKey values "Fossil Coal-derived gas" || hasKey values "Fossil Gas" then
    some (getD0 values "Fossil Coal-derived gas" + getD0 values "Fossil Gas")
  else none

/-- Embedding of `get_hydro(values)`. -/
def get_hydro (values : List (String × ℚ)) : Option ℚ :=
  if hasKey values "Hydro Run-of-river and poundage" ||
      hasKey values "Hydro Water Reservoir" then
    some (getD0 values "Hydro Run-of-river and poundage" +
      getD0 values "Hydro Water Reservoir")
  else none

/-- Embedding of `get_hydro_storage(storage_values)`. -/
def get_hydro_storage (storageValues : List (String × ℚ)) : Option ℚ :=
  if hasKey storageValues "Hydro Pumped Storage" then
    some (-1 * getD0 storageValues "Hydro Pumped Storage")
  else none

/-- Embedding of `get_oil(values)`: when a contributing label is present,
`return value if value != -1.0 else None`. -/
def get_oil (values : List (String × ℚ)) : Option ℚ :=
  if hasKey values "Fossil Oil" || hasKey values "Fossil Oil shale" then
    let value := getD0 values "Fossil Oil" + getD0 values "Fossil Oil shale"
    if value ≠ -1 then some value else none
  else none

/-- Embedding of `get_wind(values)`. -/
def get_wind (values : List (String × ℚ)) : Option ℚ :=
  if hasKey values "Wind Onshore" || hasKey values "Wind Offshore" then
    some (getD0 values "Wind Onshore" + getD0 values "Wind Offshore")
  else none

/-- Embedding of `get_geothermal(values)`. -/
def get_geothermal (values : List (String × ℚ)) : Option ℚ :=
  if hasKey values "Geothermal" then some (getD0 values "Geothermal")
  else none

/-- Embedding of `get_unknown(values)`. -/
def get_unknown (values : List (String × ℚ)) : Option ℚ :=
  if hasKey values "Marine" || hasKey values "Other renewable" ||
      hasKey values "Other" then
    some (getD0 values "Marine" + getD0 values "Other renewable" +
      getD0 values "Other")
  else none

/-! ## Static tables and the production validator -/

/-- The `ENTSOE_PARAMETER_DESC` table: parameter code to generation-type
label. -/
def ENTSOE_PARAMETER_DESC : List (String × String) :=
  [("B01", "Biomass"),
   ("B02", "Fossil Brown coal/Lignite"),
   ("B03", "Fossil Coal-derived gas"),
   ("B04", "Fossil Gas"),
   ("B05", "Fossil Hard coal"),
   ("B06", "Fossil Oil"),
   ("B07", "Fossil Oil shale"),
   ("B08", "Fossil Peat"),
   ("B09", "Geothermal"),
   ("B10", "Hydro Pumped Storage"),
   ("B11", "Hydro Run-of-river and poundage"),
   ("B12", "Hydro Water Reservoir"),
   ("B13", "Marine"),
   ("B14", "Nuclear"),
   ("B15", "Other renewable"),
   ("B16", "Solar"),
   ("B17", "Waste"),
   ("B18", "Wind Offshore"),
   ("B19", "Wind Onshore"),
   ("B20", "Other")]

/-- The `production` sub-dict of a production record: one optional entry
per public fuel category (`None` values model key-present-with-None). -/
structure ProductionMix where
  biomass : Option ℚ
  coal : Option ℚ
  gas : Option ℚ
  hydro : Option ℚ
  nuclear : Option ℚ
  oil : Option ℚ
  solar : Option ℚ
  wind : Option ℚ
  geothermal : Option ℚ
  unknown : Option ℚ
  deriving DecidableEq

/-- One production output record. -/
structure ProductionRecord where
  zoneKey : String
  datetime : Int
  production : ProductionMix
  storageHydro : Option ℚ
  source : String
  deriving DecidableEq

/-- The record built by `fetch_production` for one retained timestamp from
the label-keyed `production_values` dict. -/
def mkProductionRecord (zoneKey : String) (d : Int)
    (productionValues : List (String × ℚ)) : ProductionRecord :=
  { zoneKey := zoneKey
    datetime := d
    production :=
      { biomass := get_biomass productionValues
        coal := get_coal productionValues
        gas := get_gas productionValues
        hydro := get_hydro productionValues
        nuclear := productionValues.lookup "Nuclear"
        oil := get_oil productionValues
        solar := productionValues.lookup "Solar"
        wind := get_wind productionValues
        geothermal := get_geothermal productionValues
        unknown := get_unknown productionValues }
    storageHydro := get_hydro_storage productionValues
    source := "entsoe.eu" }

/-- Embedding of `validate_production(datapoint)`: zone-specific presence
checks of expected fuel categories; zones with no registered rule pass. -/
def validate_production (r : ProductionRecord) : Bool :=
  if r.zoneKey == "GB" || r.zoneKey == "GR" || r.zoneKey == "PT" then
    r.production.coal.isSome && r.production.gas.isSome
  else if r.zoneKey == "BE" then
    r.production.nuclear.isSome && r.production.gas.isSome
  else if r.zoneKey == "ES" then
    r.production.coal.isSome && r.production.nuclear.isSome
  else if r.zoneKey == "DK" then
    r.production.coal.isSome && r.production.gas.isSome &&
      r.production.wind.isSome
  else if r.zoneKey == "DE" then
    r.production.coal.isSome && r.production.gas.isSome &&
      r.production.nuclear.isSome
  else true

/-! ## Small Python-semantics helpers used by the fetch operations -/

/-- A Python value that is either a `str` or a `list` of `str`
(the two shapes compared by `zone_key1[0] == sorted_zone_keys`). -/
inductive PyVal where
  | pstr (s : String)
  | plist (l : List String)

/-- Python `==` on such values: values of different built-in types
(`str` vs `list`) always compare unequal. -/
def pyEq : PyVal → PyVal → Bool
  | .pstr a, .pstr b => a == b
  | .plist a, .plist b => a == b
  | .pstr _, .plist _ => false
  | .plist _, .pstr _ => false

/-- Python `s[0]` on a non-empty string: its first character, as a
one-character string. -/
def strHead1 (s : String) : String :=
  String.mk (s.toList.take 1)

/-- Python `sorted([a, b])` for strings (lexicographic code-point order,
stable). -/
def sortedPair (a b : String) : List String :=
  if a ≤ b then [a, b] else [b, a]

/-- Stable insertion into a key-sorted list: the new element goes before
the first element of key not below its own, so earlier-encountered elements
stay ahead among equal keys. -/
def insertByKey {α : Type} (key : α → Int) (x : α) : List α → List α
  | [] => [x]
  | y :: ys => if key x ≤ key y then x :: y :: ys else y :: insertByKey key x ys

/-- Python `sorted(l, key=key)`: stable ascending sort by an integer key
(insertion sort; stability matches CPython's stable sort). -/
def sortedByKey {α : Type} (key : α → Int) : List α → List α
  | [] => []
  | x :: xs => insertByKey key x (sortedByKey key xs)

/-- Python dict lookup on a list of key/value assignments in program order:
the last assignment to a key wins. -/
def pyDictGet (m : List (Int × ℚ)) (k : Int) : Option ℚ :=
  (m.reverse.find? (fun p => p.1 == k)).map (fun p => p.2)

/-- Python `set(m.keys())` as a duplicate-free list. -/
def pyDictKeys (m : List (Int × ℚ)) : List Int :=
  (m.map (fun p => p.1)).dedup

/-! ## Fetch operations

Each public fetch operation is embedded from the point where the decoded
documents are in hand: the HTTP query layer (sessions, tokens, the
`query_*` functions) is the external collaborator, so the embeddings take
the would-be query results (`Option Document`, `None` for an absent
response) as arguments.  `arrow.now()` is the explicit `now` argument. -/

/-- One consumption output record. -/
structure ConsumptionRecord where
  zoneKey : String
  datetime : Int
  consumption : ℚ
  source : String
  deriving DecidableEq

/-- The three shapes `fetch_consumption` can return: `None`, a single
record dict, or a list of record dicts. -/
inductive ConsumptionResult where
  | noData
  | single (r : ConsumptionRecord)
  | many (rs : List ConsumptionRecord)
  deriving DecidableEq

/-- Embedding of `fetch_consumption(zone_key, ...)`.  `doc` is the decoded
response of `query_consumption`; `rangeRequested` tells whether a
`target_datetime_range` was passed (its record list is built from the full
series).  The `target` branch mirrors the source: initialise
`min_dist = np.inf` (here: an empty accumulator, which the first candidate
always replaces, as every real distance is below infinity), `assert` both
lists non-empty, then keep the strictly closest candidate under
`np.abs((current_dt - target_datetime).seconds)`. -/
def fetch_consumption (zoneKey : String) (doc : Option Document)
    (target : Option Int) (rangeRequested : Bool) :
    Except String ConsumptionResult :=
  match parse_consumption doc with
  | .error e => .error e
  | .ok none => .ok .noData
  | .ok (some (quantities, datetimes)) =>
      match target with
      | some t =>
          if datetimes.isEmpty || quantities.isEmpty then .error "AssertionError"
          else
            let best := (datetimes.zip quantities).foldl
              (fun acc p =>
                let dist := |(p.1 - t).emod 86400|
                match acc with
                | none => some (dist, p.1, p.2)
                | some a => if dist < a.1 then some (dist, p.1, p.2) else acc)
              none
            match best with
            | none => .error "AssertionError"
            | some b =>
                .ok (.single
                  { zoneKey := zoneKey, datetime := b.2.1,
                    consumption := b.2.2, source := "entsoe.eu" })
      | none =>
          if rangeRequested then
            .ok (.many ((datetimes.zip quantities).map fun p =>
              { zoneKey := zoneKey, datetime := p.1, consumption := p.2,
                source := "entsoe.eu" }))
          else
            match datetimes.getLast?, quantities.getLast? with
            | some dt, some q =>
                .ok (.single
                  { zoneKey := zoneKey, datetime := dt, consumption := q,
                    source := "entsoe.eu" })
            | _, _ => .error "IndexError"

/-! ### `fetch_production` pipeline -/

/-- The assignments `production_hashmap[datetimes[i]][k] = productions[i]`
made while looping over the parameter codes of `ENTSOE_PARAMETER_DESC`,
in program order: triples `(datetime, parameter code, value)`.  `docs` maps
each parameter code to the decoded response of its `query_production`. -/
def productionUpdates (docs : String → Option Document) :
    Except String (List (Int × String × ℚ)) :=
  (exceptMapList (fun k =>
    (parse_production (docs k)).map fun parsed =>
      match parsed with
      | none => []
      | some (productions, datetimes) =>
          (datetimes.zip productions).map fun p => (p.1, k, p.2))
    (ENTSOE_PARAMETER_DESC.map (fun e => e.1))).map List.flatten

/-- The distinct parameter codes assigned at instant `d`
(`production_hashmap[d].keys()`). -/
def codesAt (updates : List (Int × String × ℚ)) (d : Int) : List String :=
  ((updates.filter (fun u => u.1 == d)).map (fun u => u.2.1)).dedup

/-- The inner dict's value for code `k` at instant `d` (last assignment
wins, as for a Python dict). -/
def valueAt (updates : List (Int × String × ℚ)) (d : Int) (k : String) :
    Option ℚ :=
  ((updates.filter (fun u => u.1 == d && u.2.1 == k)).map
    (fun u => u.2.2)).getLast?

/-- Embedding of `sorted(set(production_hashmap.keys()), reverse=True)` followed by the
future filter `x <= arrow.now()`. -/
def productionDates (updates : List (Int × String × ℚ)) (now : Int) :
    List Int :=
  (sortedByKey (fun d => -d) ((updates.map (fun u => u.1)).dedup)).filter
    (fun d => d ≤ now)

/-- Embedding of `max(map(lambda d: len(production_hashmap[d].keys()), production_dates))`
(only consulted when the date list is non-empty; the `0` seed is then
absorbed by the maximum). -/
def maxCounts (updates : List (Int × String × ℚ)) (now : Int) : Nat :=
  ((productionDates updates now).map
    (fun d => (codesAt updates d).length)).foldl max 0

/-- The completeness filter: keep the future-filtered dates whose distinct
parameter-code count attains the maximum. -/
def keptDates (updates : List (Int × String × ℚ)) (now : Int) : List Int :=
  (productionDates updates now).filter
    (fun d => (codesAt updates d).length == maxCounts updates now)

/-- Embedding of `production_values`: the inner dict at `d` re-keyed from parameter
codes to labels through `ENTSOE_PARAMETER_DESC`. -/
def production_values (updates : List (Int × String × ℚ)) (d : Int) :
    List (String × ℚ) :=
  (codesAt updates d).filterMap fun k =>
    match ENTSOE_PARAMETER_DESC.lookup k, valueAt updates d k with
    | some label, some v => some (label, v)
    | _, _ => none

/-- Embedding of `fetch_production(zone_key, ...)` from the decoded
per-parameter responses: build the double hashmap, future-filter, keep the
most complete dates, build and validate records, and narrow to the closest
record when a single `target_datetime` was passed. -/
def productionToReturn (zoneKey : String)
    (updates : List (Int × String × ℚ)) (now : Int) : List ProductionRecord :=
  ((keptDates updates now).map fun d =>
    mkProductionRecord zoneKey d (production_values updates d)).filter
    validate_production

def fetch_production (zoneKey : String) (docs : String → Option Document)
    (now : Int) (target : Option Int) :
    Except String (Option (List ProductionRecord)) :=
  match productionUpdates docs with
  | .error e => .error e
  | .ok updates =>
      if (productionDates updates now).isEmpty then .ok none
      else
        match target with
        | none => .ok (some (productionToReturn zoneKey updates now))
        | some t =>
            if (productionToReturn zoneKey updates now).isEmpty then .ok none
            else
              match sortedByKey (fun r => closest_in_time_key r.datetime t)
                  (productionToReturn zoneKey updates now) with
              | [] => .ok none
              | r :: _ => .ok (some [r])

/-! ### `fetch_exchange` and `fetch_exchange_forecast` -/

/-- One exchange output record. -/
structure ExchangeRecord where
  sortedZoneKeys : String
  datetime : Int
  netFlow : ℚ
  source : String
  deriving DecidableEq

/-- The `exchange_hashmap` built from the two decoded direction queries:
the first (import) decode feeds its accumulators into the second (export)
decode; if either decode reports absence the hashmap stays empty. -/
def exchangeHashmap (impDoc expDoc : Option Document) :
    Except String (List (Int × ℚ)) :=
  match parse_exchange impDoc true [] [] with
  | .error e => .error e
  | .ok none => .ok []
  | .ok (some (quantities, datetimes)) =>
      match parse_exchange expDoc false quantities datetimes with
      | .error e => .error e
      | .ok none => .ok []
      | .ok (some (quantities2, datetimes2)) => .ok (datetimes2.zip quantities2)

/-- The record list assembled from the hashmap for the given descending
date list: the sign flip `net_flow if zone_key1[0] == sorted_zone_keys else
-1 * net_flow` compares a one-character string with a list, which Python
evaluates to `False` for every input, so the negated branch is always
taken. -/
def exchangeRecords (zoneKey1 : String) (sortedKeys : List String)
    (hm : List (Int × ℚ)) (dates : List Int) : List ExchangeRecord :=
  dates.map fun d =>
    let netFlow := (pyDictGet hm d).getD 0
    { sortedZoneKeys := String.intercalate "->" sortedKeys
      datetime := d
      netFlow := if pyEq (.pstr (strHead1 zoneKey1)) (.plist sortedKeys)
        then netFlow else -netFlow
      source := "entsoe.eu" }

/-- The future-filtered descending date list of `fetch_exchange`. -/
def exchangeDates (hm : List (Int × ℚ)) (now : Int) : List Int :=
  (sortedByKey (fun d => -d) (pyDictKeys hm)).filter (fun d => d ≤ now)

/-- Embedding of `fetch_exchange(zone_key1, zone_key2, ...)` from the two
decoded direction responses: merge both directions, future-filter the
dates, assemble signed records, and narrow to the closest record when a
single `target_datetime` was passed. -/
def fetch_exchange (zoneKey1 zoneKey2 : String)
    (impDoc expDoc : Option Document) (now : Int) (target : Option Int) :
    Except String (Option (List ExchangeRecord)) :=
  match exchangeHashmap impDoc expDoc with
  | .error e => .error e
  | .ok hm =>
      if (exchangeDates hm now).isEmpty then .ok none
      else
        match target with
        | none => .ok (some (exchangeRecords zoneKey1
            (sortedPair zoneKey1 zoneKey2) hm (exchangeDates hm now)))
        | some t =>
            match sortedByKey (fun r => closest_in_time_key r.datetime t)
                (exchangeRecords zoneKey1 (sortedPair zoneKey1 zoneKey2) hm
                  (exchangeDates hm now)) with
            | [] => .ok none
            | r :: _ => .ok (some [r])

/-- Embedding of `fetch_exchange_forecast(zone_key1, zone_key2, ...)`:
raises `NotImplementedError` when a `target_datetime` is passed; otherwise
merges both decoded directions and assembles signed records over the
descending distinct dates.  The source contains no future filter in this
operation (its `# Remove all dates in the future` comment is not followed
by a filter), so no `now` argument exists here. -/
def fetch_exchange_forecast (zoneKey1 zoneKey2 : String)
    (impDoc expDoc : Option Document) (target : Option Int) :
    Except String (Option (List ExchangeRecord)) :=
  match target with
  | some _ => .error "This parser is not yet able to parse past dates"
  | none =>
      match exchangeHashmap impDoc expDoc with
      | .error e => .error e
      | .ok hm =>
          if (sortedByKey (fun d => -d) (pyDictKeys hm)).isEmpty then .ok none
          else .ok (some (exchangeRecords zoneKey1 (sortedPair zoneKey1 zoneKey2)
            hm (sortedByKey (fun d => -d) (pyDictKeys hm))))

/-- Spec-side formulation for the category-aggregation claims: the sum of
the values of those labels of `labels` that are present in the raw map
(the spec's "sum of the present labels' values"). -/
def specPresentSum (v : List (String × ℚ)) (labels : List String) : ℚ :=
  (labels.filterMap (fun l => v.lookup l)).sum

/-! ## Concrete documents used as test inputs in the theorems below -/

/-- Nuclear (`B14`) production document with one point at 00:59 (start
`-60` s, position 1, hourly resolution, instant `3540`) and one at 02:00
(instant `7200`). -/
def prodDocTwoDates : Document :=
  [{ resolution := "PT60M", start := -60, inBiddingZoneDomain := true,
     currency := "", points := [{ position := 1, quantity := 10, priceAmount := 0 }] },
   { resolution := "PT60M", start := 3600, inBiddingZoneDomain := true,
     currency := "", points := [{ position := 1, quantity := 20, priceAmount := 0 }] }]

/-- Per-parameter production responses: only `B14` answers, with
`prodDocTwoDates`. -/
def closestBugDocs : String → Option Document :=
  fun k => if k == "B14" then some prodDocTwoDates else none

/-- Solar (`B16`) production document with one point at 02:00 only. -/
def solarDocOneDate : Document :=
  [{ resolution := "PT60M", start := 3600, inBiddingZoneDomain := true,
     currency := "", points := [{ position := 1, quantity := 7, priceAmount := 0 }] }]

/-- Per-parameter production responses with unequal completeness: `B14`
reports at 00:59 and 02:00, `B16` only at 02:00. -/
def completenessDocs : String → Option Document :=
  fun k =>
    if k == "B14" then some prodDocTwoDates
    else if k == "B16" then some solarDocOneDate
    else none

/-- Import-direction exchange document: 100 MW at instant `3600`. -/
def importDoc100 : Document :=
  [{ resolution := "PT60M", start := 0, inBiddingZoneDomain := true,
     currency := "", points := [{ position := 1, quantity := 100, priceAmount := 0 }] }]

/-- Consumption document whose decoded series is not sorted by time:
instants `[7200, 3600]` with quantities `[10, 20]`. -/
def unsortedConsumptionDoc : Document :=
  [{ resolution := "PT60M", start := 3600, inBiddingZoneDomain := true,
     currency := "", points := [{ position := 1, quantity := 10, priceAmount := 0 }] },
   { resolution := "PT60M", start := 0, inBiddingZoneDomain := true,
     currency := "", points := [{ position := 1, quantity := 20, priceAmount := 0 }] }]

/-- Consumption document with a single point at instant `3600`. -/
def sortedConsumptionDoc : Document :=
  [{ resolution := "PT60M", start := 0, inBiddingZoneDomain := true,
     currency := "", points := [{ position := 1, quantity := 5, priceAmount := 0 }] }]

/-! ## Lemmas about the series merger -/

theorem sumAt_nil (dt : Int) : sumAt [] dt = 0 := rfl

theorem sumAt_cons (p : Int × ℚ) (ps : List (Int × ℚ)) (dt : Int) :
    sumAt (p :: ps) dt =
      if p.1 = dt then p.2 + sumAt ps dt else sumAt ps dt := by
  by_cases h : p.1 = dt <;> simp [sumAt, List.filter_cons, h]

theorem memAt_nil (dt : Int) : memAt [] dt = false := rfl

theorem memAt_cons (p : Int × ℚ) (ps : List (Int × ℚ)) (dt : Int) :
    memAt (p :: ps) dt = (p.1 == dt || memAt ps dt) := by
  simp [memAt]

theorem sumAt_eq_zero (ps : List (Int × ℚ)) (dt : Int)
    (h : memAt ps dt = false) : sumAt ps dt = 0 := by
  induction ps with
  | nil => rfl
  | cons p ps ih =>
      rw [memAt_cons] at h
      rcases Bool.or_eq_false_iff.mp h with ⟨h1, h2⟩
      rw [sumAt_cons, if_neg (by simpa using h1), ih h2]

theorem mergePoint_length (qs : List ℚ) (dts : List Int) (dt : Int) (q : ℚ)
    (h : qs.length = dts.length) :
    (mergePoint qs dts dt q).1.length = (mergePoint qs dts dt q).2.length := by
  induction qs generalizing dts with
  | nil =>
      cases dts with
      | nil => simp [mergePoint]
      | cons d ds => simp at h
  | cons q₀ qs ih =>
      cases dts with
      | nil => simp at h
      | cons d₀ ds =>
          simp only [List.length_cons, Nat.add_right_cancel_iff] at h
          by_cases hd : (d₀ == dt)
          · simp [mergePoint, hd, h]
          · simp [mergePoint, hd, ih ds h]

theorem lookup_mergePoint (qs : List ℚ) (dts : List Int) (dt : Int) (q : ℚ)
    (et : Int) (h : qs.length = dts.length) :
    lookupVal (mergePoint qs dts dt q) et =
      if dt = et then
        match lookupVal (qs, dts) et with
        | some v => some (v + q)
        | none => some q
      else lookupVal (qs, dts) et := by
  induction qs generalizing dts with
  | nil =>
      cases dts with
      | nil =>
          by_cases he : dt = et <;> simp [mergePoint, lookupVal, he]
      | cons d ds => simp at h
  | cons q₀ qs ih =>
      cases dts with
      | nil => simp at h
      | cons d₀ ds =>
          simp only [List.length_cons, Nat.add_right_cancel_iff] at h
          by_cases hd : d₀ = dt
          · subst hd
            by_cases he : d₀ = et
            · subst he
              simp [mergePoint, lookupVal]
            · simp [mergePoint, lookupVal, he, Ne.symm he]
          · by_cases he : d₀ = et
            · subst he
              have hne : dt ≠ d₀ := fun hh => hd hh.symm
              simp [mergePoint, lookupVal, hd, hne]
            · simp [mergePoint, lookupVal, hd, he, ih ds h]

theorem mergePoints_length (ps : List (Int × ℚ)) (st : List ℚ × List Int)
    (h : st.1.length = st.2.length) :
    (mergePoints ps st).1.length = (mergePoints ps st).2.length := by
  induction ps generalizing st with
  | nil => simpa [mergePoints] using h
  | cons p ps ih =>
      have hstep := mergePoint_length st.1 st.2 p.1 p.2 h
      simpa [mergePoints, List.foldl_cons] using
        ih (mergePoint st.1 st.2 p.1 p.2) hstep

theorem lookup_mergePoints (ps : List (Int × ℚ)) (st : List ℚ × List Int)
    (et : Int) (h : st.1.length = st.2.length) :
    lookupVal (mergePoints ps st) et =
      match lookupVal st et with
      | some v => some (v + sumAt ps et)
      | none => if memAt ps et then some (sumAt ps et) else none := by
  induction ps generalizing st with
  | nil =>
      cases hv : lookupVal st et <;>
        simp [mergePoints, hv, sumAt_nil, memAt_nil]
  | cons p ps ih =>
      have hstep := mergePoint_length st.1 st.2 p.1 p.2 h
      have hm : mergePoints (p :: ps) st
          = mergePoints ps (mergePoint st.1 st.2 p.1 p.2) := rfl
      rw [hm, ih (mergePoint st.1 st.2 p.1 p.2) hstep,
        lookup_mergePoint st.1 st.2 p.1 p.2 et h]
      by_cases he : p.1 = et
      · cases hv : lookupVal (st.1, st.2) et <;>
          simp [he, hv, sumAt_cons, memAt_cons, add_assoc]
      · cases hv : lookupVal (st.1, st.2) et <;>
          simp [he, hv, sumAt_cons, memAt_cons]

theorem lookup_mergePoints_empty (ps : List (Int × ℚ)) (et : Int) :
    lookupVal (mergePoints ps ([], [])) et =
      if memAt ps et then some (sumAt ps et) else none := by
  have h := lookup_mergePoints ps ([], []) et rfl
  simpa [lookupVal] using h

theorem mergePoints_append (a b : List (Int × ℚ)) (st : List ℚ × List Int) :
    mergePoints (a ++ b) st = mergePoints b (mergePoints a st) :=
  List.foldl_append ..

/-! ## Lemmas about the stable sort and list maxima -/

theorem mem_insertByKey {α : Type} (key : α → Int) (a x : α) (l : List α) :
    x ∈ insertByKey key a l ↔ x = a ∨ x ∈ l := by
  induction l with
  | nil => simp [insertByKey]
  | cons y ys ih =>
      by_cases h : key a ≤ key y
      · simp [insertByKey, h]
      · simp [insertByKey, h, ih]
        tauto

theorem mem_sortedByKey {α : Type} (key : α → Int) (x : α) (l : List α) :
    x ∈ sortedByKey key l ↔ x ∈ l := by
  induction l with
  | nil => simp [sortedByKey]
  | cons y ys ih => simp [sortedByKey, mem_insertByKey, ih]

theorem head_mem_of_sortedByKey {α : Type} (key : α → Int) (l : List α)
    (x : α) (xs : List α) (h : sortedByKey key l = x :: xs) : x ∈ l := by
  have hx : x ∈ sortedByKey key l := by
    rw [h]; exact List.mem_cons_self x xs
  exact (mem_sortedByKey key x l).mp hx

theorem le_foldl_max_seed (l : List Nat) (a : Nat) : a ≤ l.foldl max a := by
  induction l generalizing a with
  | nil => simp
  | cons b l ih =>
      exact le_trans (le_max_left a b) (ih (max a b))

theorem le_foldl_max (l : List Nat) (a x : Nat) (hx : x ∈ l) :
    x ≤ l.foldl max a := by
  induction l generalizing a with
  | nil => cases hx
  | cons b l ih =>
      rcases List.mem_cons.mp hx with rfl | hx
      · exact le_trans (le_max_right a x) (le_foldl_max_seed l (max a x))
      · exact ih (max a b) hx

theorem foldl_max_mem (l : List Nat) (a : Nat) :
    l.foldl max a ∈ l ∨ l.foldl max a = a := by
  induction l generalizing a with
  | nil => right; rfl
  | cons b l ih =>
      rcases ih (max a b) with h | h
      · left; exact List.mem_cons_of_mem b h
      · rcases max_choice a b with hm | hm
        · right; simpa [hm] using h
        · left; rw [List.foldl_cons, h, hm]; exact List.mem_cons_self b l

theorem getLast_max_of_sorted (l : List Int) (m : Int)
    (hs : List.Sorted (· ≤ ·) l) (hm : l.getLast? = some m) :
    ∀ x ∈ l, x ≤ m := by
  induction l with
  | nil => intro x hx; cases hx
  | cons a l ih =>
      intro x hx
      cases l with
      | nil =>
          simp [List.getLast?] at hm
          rcases List.mem_singleton.mp hx with rfl
          exact le_of_eq hm
      | cons b l' =>
          have hm' : (b :: l').getLast? = some m := by
            simpa [List.getLast?_cons_cons] using hm
          have hs' : List.Sorted (· ≤ ·) (b :: l') := hs.of_cons
          rcases List.mem_cons.mp hx with rfl | hx'
          · have hb : x ≤ b := (List.sorted_cons.mp hs).1 b (List.mem_cons_self b l')
            exact le_trans hb (ih hs' hm' b (List.mem_cons_self b l'))
          · exact ih hs' hm' x hx'

theorem getD0_eq (v : List (String × ℚ)) (l : String) :
    getD0 v l = match v.lookup l with | some x => x | none => 0 := by
  cases h : v.lookup l <;> simp [getD0, h]

/-! ## Claim theorems -/

/-- Claim C5 counterexample: the claim fails on the program's own
arithmetic.  With the IEEE binary64 accumulation the merger actually
performs, merging decoded series `A = [(t, 1e17), (t, -1e17)]` then
`B = [(t, 1)]` leaves `1` at the shared timestamp, while merging `B` then
`A` leaves `0`: the first collision of the second order rounds
`1 + 1e17` to `1e17`, so the aggregates are not identical as mappings and
same-timestamp accumulation is not associative/commutative over floats. -/
theorem merger_float_order_dependent :
    lookupValFP (mergePointsFP [((0 : Int), (1 : Int))]
        (mergePointsFP [((0 : Int), (100000000000000000 : Int)),
          (0, -100000000000000000)] ([], []))).1
      (mergePointsFP [((0 : Int), (1 : Int))]
        (mergePointsFP [((0 : Int), (100000000000000000 : Int)),
          (0, -100000000000000000)] ([], []))).2 0 = some 1
    ∧ lookupValFP (mergePointsFP [((0 : Int), (100000000000000000 : Int)),
          (0, -100000000000000000)]
        (mergePointsFP [((0 : Int), (1 : Int))] ([], []))).1
      (mergePointsFP [((0 : Int), (100000000000000000 : Int)),
          (0, -100000000000000000)]
        (mergePointsFP [((0 : Int), (1 : Int))] ([], []))).2 0 = some 0
    ∧ (1 : Int) ≠ 0 := by
  refine ⟨by decide, by decide, by decide⟩

/-- Claim C5 (amended): same-timestamp accumulation in the series merger
is commutative and associative for the exact (rational) idealization of
the accumulation — merging decoded series `A` then `B` (feeding the first
merge's accumulators into the second, as `fetch_exchange` does) denotes the
same timestamp-to-value mapping as merging `B` then `A`; chained merges
equal one merge of the concatenated point list; and the value at a
timestamp is always the accumulated sum of every colliding point, never an
overwrite.  Over the program's IEEE doubles the aggregate can depend on
the merge order when several points collide on one timestamp (see the
counterexample above); collisions still always accumulate, never
overwrite. -/
theorem merger_comm_assoc_accumulates (A B : List (Int × ℚ)) (dt : Int) :
    lookupVal (mergePoints B (mergePoints A ([], []))) dt
      = lookupVal (mergePoints A (mergePoints B ([], []))) dt
    ∧ (∀ (C : List (Int × ℚ)) (st : List ℚ × List Int),
        mergePoints C (mergePoints B (mergePoints A st))
          = mergePoints (A ++ B ++ C) st)
    ∧ lookupVal (mergePoints A ([], [])) dt
        = (if memAt A dt then some (sumAt A dt) else none) := by
  refine ⟨?_, ?_, lookup_mergePoints_empty A dt⟩
  · rw [lookup_mergePoints B (mergePoints A ([], [])) dt
      (mergePoints_length A ([], []) rfl),
      lookup_mergePoints A (mergePoints B ([], [])) dt
      (mergePoints_length B ([], []) rfl),
      lookup_mergePoints_empty A dt, lookup_mergePoints_empty B dt]
    by_cases hA : memAt A dt = true <;> by_cases hB : memAt B dt = true
    · simp [hA, hB, add_comm]
    · have h0 : sumAt B dt = 0 :=
        sumAt_eq_zero B dt (Bool.not_eq_true _ |>.mp hB)
      simp [hA, hB, h0]
    · have h0 : sumAt A dt = 0 :=
        sumAt_eq_zero A dt (Bool.not_eq_true _ |>.mp hA)
      simp [hA, hB, h0]
    · simp [hA, hB]
  · intro C st
    rw [mergePoints_append, mergePoints_append]

/-- Claim C7 counterexample: the resolution spec `"PT0M"` matches the
minute-based grammar (the regex finds `PT0M`, minute count `0`), yet the
resolution clock returns the same instant at positions `1` and `2`: the
result is not strictly increasing in position as the claim states. -/
theorem resolution_clock_not_strictly_increasing :
    findPTMinutes "PT0M".toList = some 0
    ∧ datetime_from_position 0 1 "PT0M" = .ok 0
    ∧ datetime_from_position 0 2 "PT0M" = .ok 0 :=
  ⟨rfl, rfl, rfl⟩

/-- Claim C7 (amended): for every start instant, position and duration spec,
if the spec matches the minute-based grammar with minute count `d` the
resolution clock returns `start + position × d` minutes, and the result is
linear in position (consecutive positions differ by the constant `d`
minutes) and strictly increasing in position whenever `d` is positive (for
a zero minute count such as `"PT0M"` it is constant); any spec outside the
grammar raises the unsupported-resolution error carrying the raw spec
string. -/
theorem datetime_from_position_amended (start pos : Int) (res : String) :
    (∀ d : Nat, findPTMinutes res.toList = some d →
      datetime_from_position start pos res
          = .ok (start + 60 * (pos * (d : Int)))
      ∧ (start + 60 * ((pos + 1) * (d : Int)))
          - (start + 60 * (pos * (d : Int))) = 60 * (d : Int)
      ∧ (∀ pos2 : Int, pos < pos2 → 0 < d →
          start + 60 * (pos * (d : Int)) < start + 60 * (pos2 * (d : Int))))
    ∧ (findPTMinutes res.toList = none →
      datetime_from_position start pos res
        = .error ("Could not recognise resolution " ++ res)) := by
  constructor
  · intro d hd
    have hd2 : findPTMinutes res.data = some d := hd
    refine ⟨by simp [datetime_from_position, hd2], by ring, ?_⟩
    intro pos2 h2 hdpos
    have hd' : (0 : Int) < (d : Int) := by exact_mod_cast hdpos
    have hmul : pos * (d : Int) < pos2 * (d : Int) :=
      mul_lt_mul_of_pos_right h2 hd'
    linarith
  · intro hn
    have hn2 : findPTMinutes res.data = none := hn
    simp [datetime_from_position, hn2]

/-- Witness for `datetime_from_position_amended` at `"PT60M"` (matched,
minute count 60) and `"PT1H"` (not matched, error carries the spec). -/
theorem datetime_from_position_amended_witness :
    datetime_from_position 0 1 "PT60M" = .ok 3600
    ∧ ((0 : Int) + 60 * ((1 + 1) * (60 : Int)))
        - (0 + 60 * (1 * (60 : Int))) = 60 * 60
    ∧ ((0 : Int) + 60 * (1 * (60 : Int)) < 0 + 60 * (2 * (60 : Int)))
    ∧ datetime_from_position 0 1 "PT1H"
        = .error ("Could not recognise resolution " ++ "PT1H") := by
  obtain ⟨ha, hb, hc⟩ :=
    (datetime_from_position_amended 0 1 "PT60M").1 60 (by rfl)
  refine ⟨by simpa using ha, hb, hc 2 (by norm_num) (by norm_num), ?_⟩
  exact (datetime_from_position_amended 0 1 "PT1H").2 (by rfl)

theorem biomass_spec (v : List (String × ℚ)) :
    (get_biomass v = none ↔ v.lookup "Biomass" = none
      ∧ v.lookup "Fossil Peat" = none ∧ v.lookup "Waste" = none)
    ∧ ∀ s, get_biomass v = some s →
        s = specPresentSum v ["Biomass", "Fossil Peat", "Waste"] := by
  cases h1 : v.lookup "Biomass" <;> cases h2 : v.lookup "Fossil Peat" <;>
    cases h3 : v.lookup "Waste" <;>
    simp [get_biomass, hasKey, getD0, specPresentSum, h1, h2, h3, add_assoc]

theorem coal_spec (v : List (String × ℚ)) :
    (get_coal v = none ↔ v.lookup "Fossil Brown coal/Lignite" = none
      ∧ v.lookup "Fossil Hard coal" = none)
    ∧ ∀ s, get_coal v = some s →
        s = specPresentSum v ["Fossil Brown coal/Lignite", "Fossil Hard coal"] := by
  cases h1 : v.lookup "Fossil Brown coal/Lignite" <;>
    cases h2 : v.lookup "Fossil Hard coal" <;>
    simp [get_coal, hasKey, getD0, specPresentSum, h1, h2, add_assoc]

theorem gas_spec (v : List (String × ℚ)) :
    (get_gas v = none ↔ v.lookup "Fossil Coal-derived gas" = none
      ∧ v.lookup "Fossil Gas" = none)
    ∧ ∀ s, get_gas v = some s →
        s = specPresentSum v ["Fossil Coal-derived gas", "Fossil Gas"] := by
  cases h1 : v.lookup "Fossil Coal-derived gas" <;>
    cases h2 : v.lookup "Fossil Gas" <;>
    simp [get_gas, hasKey, getD0, specPresentSum, h1, h2, add_assoc]

theorem hydro_spec (v : List (String × ℚ)) :
    (get_hydro v = none ↔ v.lookup "Hydro Run-of-river and poundage" = none
      ∧ v.lookup "Hydro Water Reservoir" = none)
    ∧ ∀ s, get_hydro v = some s →
        s = specPresentSum v
          ["Hydro Run-of-river and poundage", "Hydro Water Reservoir"] := by
  cases h1 : v.lookup "Hydro Run-of-river and poundage" <;>
    cases h2 : v.lookup "Hydro Water Reservoir" <;>
    simp [get_hydro, hasKey, getD0, specPresentSum, h1, h2, add_assoc]

theorem wind_spec (v : List (String × ℚ)) :
    (get_wind v = none ↔ v.lookup "Wind Onshore" = none
      ∧ v.lookup "Wind Offshore" = none)
    ∧ ∀ s, get_wind v = some s →
        s = specPresentSum v ["Wind Onshore", "Wind Offshore"] := by
  cases h1 : v.lookup "Wind Onshore" <;> cases h2 : v.lookup "Wind Offshore" <;>
    simp [get_wind, hasKey, getD0, specPresentSum, h1, h2, add_assoc]

theorem geothermal_spec (v : List (String × ℚ)) :
    (get_geothermal v = none ↔ v.lookup "Geothermal" = none)
    ∧ ∀ s, get_geothermal v = some s →
        s = specPresentSum v ["Geothermal"] := by
  cases h1 : v.lookup "Geothermal" <;>
    simp [get_geothermal, hasKey, getD0, specPresentSum, h1]

theorem unknown_spec (v : List (String × ℚ)) :
    (get_unknown v = none ↔ v.lookup "Marine" = none
      ∧ v.lookup "Other renewable" = none ∧ v.lookup "Other" = none)
    ∧ ∀ s, get_unknown v = some s →
        s = specPresentSum v ["Marine", "Other renewable", "Other"] := by
  cases h1 : v.lookup "Marine" <;> cases h2 : v.lookup "Other renewable" <;>
    cases h3 : v.lookup "Other" <;>
    simp [get_unknown, hasKey, getD0, specPresentSum, h1, h2, h3, add_assoc]

theorem hydro_storage_spec (v : List (String × ℚ)) :
    (get_hydro_storage v = none ↔ v.lookup "Hydro Pumped Storage" = none)
    ∧ ∀ s, get_hydro_storage v = some s →
        s = -(specPresentSum v ["Hydro Pumped Storage"]) := by
  cases h1 : v.lookup "Hydro Pumped Storage" <;>
    simp [get_hydro_storage, hasKey, getD0, specPresentSum, h1]

theorem oil_spec (v : List (String × ℚ)) :
    (get_oil v = none ↔ (v.lookup "Fossil Oil" = none
        ∧ v.lookup "Fossil Oil shale" = none)
      ∨ specPresentSum v ["Fossil Oil", "Fossil Oil shale"] = -1)
    ∧ ∀ s, get_oil v = some s →
        s = specPresentSum v ["Fossil Oil", "Fossil Oil shale"] ∧ s ≠ -1 := by
  cases h1 : v.lookup "Fossil Oil" <;> cases h2 : v.lookup "Fossil Oil shale" <;>
    simp [get_oil, hasKey, getD0, specPresentSum, h1, h2, add_assoc]

/-- Claim C8 counterexample: with the raw map `{'Fossil Oil': -1.0}` the oil
label is present, yet `get_oil` reports absence (the `-1.0` sentinel), so a
category can be absent although a contributing source label is present:
the claim's "absent exactly when no contributing label is present" fails. -/
theorem category_absent_despite_present_label :
    get_oil [("Fossil Oil", (-1 : ℚ))] = none
    ∧ hasKey [("Fossil Oil", (-1 : ℚ))] "Fossil Oil" = true := by
  constructor <;> simp [get_oil, hasKey, getD0, List.lookup]

/-- Claim C8 (amended): for every raw per-label value map, every aggregated
fuel category except oil is absent exactly when none of its contributing
source labels is present, and when present carries the sum of the present
labels' values (0 if the only present label is 0); oil is additionally
reported absent when its combined value is exactly `-1.0` (the sentinel
passthrough), and otherwise follows the same rule.  The hydro storage
bundle is the negated present value. -/
theorem category_aggregation_amended (v : List (String × ℚ)) :
    ((get_biomass v = none ↔ v.lookup "Biomass" = none
        ∧ v.lookup "Fossil Peat" = none ∧ v.lookup "Waste" = none)
      ∧ ∀ s, get_biomass v = some s →
          s = specPresentSum v ["Biomass", "Fossil Peat", "Waste"])
    ∧ ((get_coal v = none ↔ v.lookup "Fossil Brown coal/Lignite" = none
        ∧ v.lookup "Fossil Hard coal" = none)
      ∧ ∀ s, get_coal v = some s →
          s = specPresentSum v ["Fossil Brown coal/Lignite", "Fossil Hard coal"])
    ∧ ((get_gas v = none ↔ v.lookup "Fossil Coal-derived gas" = none
        ∧ v.lookup "Fossil Gas" = none)
      ∧ ∀ s, get_gas v = some s →
          s = specPresentSum v ["Fossil Coal-derived gas", "Fossil Gas"])
    ∧ ((get_hydro v = none ↔ v.lookup "Hydro Run-of-river and poundage" = none
        ∧ v.lookup "Hydro Water Reservoir" = none)
      ∧ ∀ s, get_hydro v = some s →
          s = specPresentSum v
            ["Hydro Run-of-river and poundage", "Hydro Water Reservoir"])
    ∧ ((get_wind v = none ↔ v.lookup "Wind Onshore" = none
        ∧ v.lookup "Wind Offshore" = none)
      ∧ ∀ s, get_wind v = some s →
          s = specPresentSum v ["Wind Onshore", "Wind Offshore"])
    ∧ ((get_geothermal v = none ↔ v.lookup "Geothermal" = none)
      ∧ ∀ s, get_geothermal v = some s → s = specPresentSum v ["Geothermal"])
    ∧ ((get_unknown v = none ↔ v.lookup "Marine" = none
        ∧ v.lookup "Other renewable" = none ∧ v.lookup "Other" = none)
      ∧ ∀ s, get_unknown v = some s →
          s = specPresentSum v ["Marine", "Other renewable", "Other"])
    ∧ ((get_hydro_storage v = none ↔ v.lookup "Hydro Pumped Storage" = none)
      ∧ ∀ s, get_hydro_storage v = some s →
          s = -(specPresentSum v ["Hydro Pumped Storage"]))
    ∧ ((get_oil v = none ↔ (v.lookup "Fossil Oil" = none
          ∧ v.lookup "Fossil Oil shale" = none)
        ∨ specPresentSum v ["Fossil Oil", "Fossil Oil shale"] = -1)
      ∧ ∀ s, get_oil v = some s →
          s = specPresentSum v ["Fossil Oil", "Fossil Oil shale"] ∧ s ≠ -1) :=
  ⟨biomass_spec v, coal_spec v, gas_spec v, hydro_spec v, wind_spec v,
    geothermal_spec v, unknown_spec v, hydro_storage_spec v, oil_spec v⟩

/-- Witness for `category_aggregation_amended` on the concrete map
`{'Waste': 0, 'Fossil Oil': 3}`: biomass is present with value 0 (confirmed
zero, not absent), coal is absent, and oil is present with value 3. -/
theorem category_aggregation_amended_witness :
    (get_biomass [("Waste", (0 : ℚ)), ("Fossil Oil", 3)] = none ↔
        ([(("Waste" : String), (0 : ℚ)), ("Fossil Oil", 3)].lookup "Biomass" = none
          ∧ [(("Waste" : String), (0 : ℚ)), ("Fossil Oil", 3)].lookup "Fossil Peat" = none
          ∧ [(("Waste" : String), (0 : ℚ)), ("Fossil Oil", 3)].lookup "Waste" = none))
    ∧ ((3 : ℚ) = specPresentSum [("Waste", (0 : ℚ)), ("Fossil Oil", 3)]
          ["Fossil Oil", "Fossil Oil shale"] ∧ (3 : ℚ) ≠ -1) := by
  constructor
  · exact (category_aggregation_amended
      [("Waste", (0 : ℚ)), ("Fossil Oil", 3)]).1.1
  · exact (category_aggregation_amended
      [("Waste", (0 : ℚ)), ("Fossil Oil", 3)]).2.2.2.2.2.2.2.2.2 3
      (by simp [get_oil, hasKey, getD0, List.lookup]; norm_num)

/-- Claim C6 counterexample: a response whose first `text` element is some
other failure message and whose second `text` element is the
`'No matching data found'` marker does contain the marker, yet
`check_response` raises `QueryError` (only `text[0]` is consulted), so
"a response containing the marker is treated as empty" fails as stated. -/
theorem marker_in_second_text_element_still_raises :
    check_response ["Service failure", "No matching data found"]
        "query_production"
      = .error ("query_production failed in ENTSOE.py. Reason: Service failure")
    ∧ strContains "No matching data found" "No matching data found" = true := by
  constructor
  · rfl
  · decide

/-- Claim C6 (amended): every decoder variant maps an empty/absent document
to `None` (absence, not an exception); a response with no embedded `text`
element passes silently; a response whose **first** `text` element contains
the `'No matching data found'` marker is treated as empty; and when the
first `text` element lacks the marker, `QueryError` is raised carrying the
calling operation's name and that element's message text (later `text`
elements are not consulted). -/
theorem decoder_absence_amended :
    (∀ (b : Bool) (qs : List ℚ) (dts : List Int),
      parse_consumption none = .ok none
      ∧ parse_production none = .ok none
      ∧ parse_exchange none b qs dts = .ok none
      ∧ parse_price none = .ok none
      ∧ parse_generation_forecast none = .ok none
      ∧ parse_consumption_forecast none = .ok none)
    ∧ (∀ fn : String, check_response [] fn = .ok ())
    ∧ (∀ (t : String) (rest : List String) (fn : String),
        strContains t "No matching data found" = true →
        check_response (t :: rest) fn = .ok ())
    ∧ (∀ (t : String) (rest : List String) (fn : String),
        strContains t "No matching data found" = false →
        check_response (t :: rest) fn
          = .error (fn ++ " failed in ENTSOE.py. Reason: " ++ t)) := by
  refine ⟨fun b qs dts => ⟨rfl, rfl, rfl, rfl, rfl, rfl⟩, fun fn => rfl, ?_, ?_⟩
  · intro t rest fn h
    simp [check_response, h]
  · intro t rest fn h
    simp [check_response, h]

/-- Witness for `decoder_absence_amended`: the marker response passes,
an unrelated error message raises with the operation name and text. -/
theorem decoder_absence_amended_witness :
    check_response ["No matching data found"] "query_consumption" = .ok ()
    ∧ check_response ["Service unavailable"] "query_price"
      = .error ("query_price" ++ " failed in ENTSOE.py. Reason: "
          ++ "Service unavailable") := by
  constructor
  · exact decoder_absence_amended.2.2.1 "No matching data found" []
      "query_consumption" (by decide)
  · exact decoder_absence_amended.2.2.2 "Service unavailable" [] "query_price"
      (by decide)

/-- Claim C10: when `fetch_consumption` is called with a target instant and
the decoder returns a non-`None` result with empty point lists, the call
raises the uncaught assertion (`assert len(datetimes) and len(quantities)`)
instead of returning absence. -/
theorem consumption_empty_series_assertion (zk : String) (t : Int)
    (doc : Option Document)
    (h : parse_consumption doc = .ok (some ([], []))) :
    fetch_consumption zk doc (some t) false = .error "AssertionError" := by
  simp [fetch_consumption, h]

/-- Witness for `consumption_empty_series_assertion`: a well-formed
document with no `timeseries` elements decodes to empty lists and the
target-instant call raises the assertion. -/
theorem consumption_empty_series_assertion_witness :
    fetch_consumption "FR" (some []) (some 0) false = .error "AssertionError" :=
  consumption_empty_series_assertion "FR" 0 (some []) rfl

/-- Claim C9 counterexample: on a decoded series that is not sorted by time
(instants `[7200, 3600]`), the "latest" branch of `fetch_consumption`
returns the *last stored* point (instant `3600`), not the chronologically
latest decoded point (instant `7200`). -/
theorem consumption_latest_is_last_not_max :
    fetch_consumption "FR" (some unsortedConsumptionDoc) none false
      = .ok (.single ⟨"FR", 3600, 20, "entsoe.eu"⟩)
    ∧ parse_consumption (some unsortedConsumptionDoc)
      = .ok (some ([10, 20], [7200, 3600]))
    ∧ (3600 : Int) < 7200 := by
  refine ⟨rfl, rfl, by norm_num⟩

/-- Claim C9 (amended): with neither target instant nor range, and a
non-empty decoded series, `fetch_consumption` returns the **last stored**
decoded point; this is the chronologically latest point whenever the
decoded datetimes are sorted in nondecreasing order (which a
time-ordered response provides), but not in general. -/
theorem consumption_latest_amended (zk : String) (doc : Option Document)
    (qs : List ℚ) (dts : List Int)
    (h : parse_consumption doc = .ok (some (qs, dts)))
    (dtl : Int) (ql : ℚ)
    (hdt : dts.getLast? = some dtl) (hql : qs.getLast? = some ql) :
    fetch_consumption zk doc none false
      = .ok (.single ⟨zk, dtl, ql, "entsoe.eu"⟩)
    ∧ (List.Sorted (· ≤ ·) dts → ∀ d ∈ dts, d ≤ dtl) := by
  constructor
  · simp [fetch_consumption, h, hdt, hql]
  · intro hs d hd
    exact getLast_max_of_sorted dts dtl hs hdt d hd

/-- Witness for `consumption_latest_amended` on a sorted single-point
series. -/
theorem consumption_latest_amended_witness :
    fetch_consumption "FR" (some sortedConsumptionDoc) none false
      = .ok (.single ⟨"FR", 3600, 5, "entsoe.eu"⟩)
    ∧ (3600 : Int) ≤ 3600 := by
  have h := consumption_latest_amended "FR" (some sortedConsumptionDoc)
    [5] [3600] rfl 3600 5 rfl rfl
  exact ⟨h.1, h.2 (by simp) 3600 (by simp)⟩

/-- Claim C4: after future-date filtering, a timestamp is retained by the
completeness filter iff its number of distinct contributing parameter
codes equals the maximum such count over all future-filtered timestamps;
that maximum bounds every candidate's count and is attained by some
candidate. -/
theorem completeness_filter_keeps_max (docs : String → Option Document)
    (updates : List (Int × String × ℚ)) (now : Int)
    (hu : productionUpdates docs = .ok updates)
    (hne : productionDates updates now ≠ []) :
    (∀ d, d ∈ keptDates updates now ↔
      d ∈ productionDates updates now
        ∧ (codesAt updates d).length = maxCounts updates now)
    ∧ (∀ d ∈ productionDates updates now,
        (codesAt updates d).length ≤ maxCounts updates now)
    ∧ (∃ d ∈ productionDates updates now,
        (codesAt updates d).length = maxCounts updates now) := by
  refine ⟨?_, ?_, ?_⟩
  · intro d
    simp [keptDates, List.mem_filter]
  · intro d hd
    exact le_foldl_max _ 0 _ (List.mem_map.mpr ⟨d, hd, rfl⟩)
  · rcases foldl_max_mem ((productionDates updates now).map
        (fun d => (codesAt updates d).length)) 0 with h | h
    · rcases List.mem_map.mp h with ⟨d, hd, hdm⟩
      exact ⟨d, hd, hdm.symm ▸ rfl⟩
    · rcases List.exists_mem_of_ne_nil _ hne with ⟨d0, hd0⟩
      have hle : (codesAt updates d0).length ≤ maxCounts updates now :=
        le_foldl_max _ 0 _ (List.mem_map.mpr ⟨d0, hd0, rfl⟩)
      have h0 : maxCounts updates now = 0 := h
      exact ⟨d0, hd0, by omega⟩

/-- Witness for `completeness_filter_keeps_max`: `B14` reports at 00:59
and 02:00 while `B16` reports only at 02:00 (counts 1 vs 2), so only the
02:00 timestamp is kept. -/
theorem completeness_filter_keeps_max_witness :
    7200 ∈ keptDates [((3540 : Int), ("B14" : String), (10 : ℚ)),
      (7200, "B14", 20), (7200, "B16", 7)] 7200
    ∧ 3540 ∉ keptDates [((3540 : Int), ("B14" : String), (10 : ℚ)),
      (7200, "B14", 20), (7200, "B16", 7)] 7200 := by
  have h := completeness_filter_keeps_max completenessDocs
    [((3540 : Int), ("B14" : String), (10 : ℚ)), (7200, "B14", 20),
      (7200, "B16", 7)] 7200 rfl (by decide)
  constructor
  · exact (h.1 7200).mpr ⟨by decide, by decide⟩
  · intro hmem
    have := (h.1 3540).mp hmem
    revert this
    decide

theorem mem_productionDates_le (updates : List (Int × String × ℚ))
    (now d : Int) (h : d ∈ productionDates updates now) : d ≤ now := by
  have h2 := (List.mem_filter.mp h).2
  simpa using h2

theorem prod_record_datetime_le (zk : String)
    (updates : List (Int × String × ℚ)) (now : Int) (r : ProductionRecord)
    (h : r ∈ productionToReturn zk updates now) : r.datetime ≤ now := by
  rw [productionToReturn] at h
  rcases List.mem_filter.mp h with ⟨hmap, _⟩
  rcases List.mem_map.mp hmap with ⟨d, hd, rfl⟩
  have hd' : d ∈ productionDates updates now := (List.mem_filter.mp hd).1
  exact mem_productionDates_le updates now d hd'

theorem exch_record_datetime_le (zk1 : String) (sortedKeys : List String)
    (hm : List (Int × ℚ)) (now : Int) (r : ExchangeRecord)
    (h : r ∈ exchangeRecords zk1 sortedKeys hm (exchangeDates hm now)) :
    r.datetime ≤ now := by
  rcases List.mem_map.mp h with ⟨d, hd, rfl⟩
  have hd' : d ∈ (sortedByKey (fun d => -d) (pyDictKeys hm)).filter
      (fun d => decide (d ≤ now)) := hd
  simpa using (List.mem_filter.mp hd').2

/-- Claim C2 counterexample: `fetch_exchange_forecast` applies no future
filter (it consults no clock at all), so with an import point at instant
`3600` and fetch instant `0` the assembled output contains a record whose
timestamp is strictly after the fetch instant. -/
theorem exchange_forecast_keeps_future_record :
    fetch_exchange_forecast "AT" "BE" (some importDoc100) (some []) none
      = .ok (some [⟨"AT->BE", 3600, -100, "entsoe.eu"⟩])
    ∧ (3600 : Int) > 0 := by
  constructor
  · simp [fetch_exchange_forecast, exchangeHashmap, parse_exchange,
      exchSeriesPoints, exceptMapList, datetime_from_position, findPTMinutes,
      natOfDigits, importDoc100, mergePoints, mergePoint, pyDictKeys,
      pyDictGet, sortedByKey, insertByKey, exchangeRecords, sortedPair, pyEq,
      strHead1, Except.map]
    decide
  · norm_num

/-- Claim C2 (amended): the future-date filter holds for the production and
exchange fetches: every record they return has a timestamp at or before
the fetch instant `now`.  The consumption, price, exchange-forecast,
generation-forecast and consumption-forecast fetches apply no future
filter (the forecast operations intentionally return future points). -/
theorem future_filter_amended :
    (∀ (zk : String) (docs : String → Option Document) (now : Int)
        (target : Option Int) (rs : List ProductionRecord)
        (r : ProductionRecord),
      fetch_production zk docs now target = .ok (some rs) → r ∈ rs →
        r.datetime ≤ now)
    ∧ (∀ (zk1 zk2 : String) (impDoc expDoc : Option Document) (now : Int)
        (target : Option Int) (rs : List ExchangeRecord) (r : ExchangeRecord),
      fetch_exchange zk1 zk2 impDoc expDoc now target = .ok (some rs) →
        r ∈ rs → r.datetime ≤ now) := by
  constructor
  · intro zk docs now target rs r hf hr
    unfold fetch_production at hf
    split at hf
    · exact absurd hf (by simp)
    · split at hf
      · exact absurd hf (by simp)
      · split at hf
        · simp only [Except.ok.injEq, Option.some.injEq] at hf
          subst hf
          exact prod_record_datetime_le _ _ _ _ hr
        · split at hf
          · exact absurd hf (by simp)
          · split at hf
            · exact absurd hf (by simp)
            · simp only [Except.ok.injEq, Option.some.injEq] at hf
              subst hf
              rw [List.mem_singleton] at hr
              subst hr
              exact prod_record_datetime_le _ _ _ _
                (head_mem_of_sortedByKey _ _ _ _ (by assumption))
  · intro zk1 zk2 impDoc expDoc now target rs r hf hr
    unfold fetch_exchange at hf
    split at hf
    · exact absurd hf (by simp)
    · split at hf
      · exact absurd hf (by simp)
      · split at hf
        · simp only [Except.ok.injEq, Option.some.injEq] at hf
          subst hf
          exact exch_record_datetime_le _ _ _ _ _ hr
        · split at hf
          · exact absurd hf (by simp)
          · simp only [Except.ok.injEq, Option.some.injEq] at hf
            subst hf
            rw [List.mem_singleton] at hr
            subst hr
            exact exch_record_datetime_le _ _ _ _ _
              (head_mem_of_sortedByKey _ _ _ _ (by assumption))

/-- Witness for `future_filter_amended` on concrete production and
exchange fetches with fetch instant `7200`. -/
theorem future_filter_amended_witness :
    (3540 : Int) ≤ 7200 ∧ (3600 : Int) ≤ 7200 := by
  constructor
  · exact future_filter_amended.1 "FR" closestBugDocs 7200 none
      [⟨"FR", 7200, ⟨none, none, none, none, some 20, none, none, none, none,
          none⟩, none, "entsoe.eu"⟩,
        ⟨"FR", 3540, ⟨none, none, none, none, some 10, none, none, none, none,
          none⟩, none, "entsoe.eu"⟩]
      ⟨"FR", 3540, ⟨none, none, none, none, some 10, none, none, none, none,
        none⟩, none, "entsoe.eu"⟩
      (by rfl) (by simp)
  · exact future_filter_amended.2 "AT" "BE" (some importDoc100) (some [])
      7200 none [⟨"AT->BE", 3600, -100, "entsoe.eu"⟩]
      ⟨"AT->BE", 3600, -100, "entsoe.eu"⟩
      (by
        simp [fetch_exchange, exchangeHashmap, parse_exchange,
          exchSeriesPoints, exceptMapList, datetime_from_position,
          findPTMinutes, natOfDigits, importDoc100, mergePoints, mergePoint,
          pyDictKeys, pyDictGet, sortedByKey, insertByKey, exchangeRecords,
          exchangeDates, sortedPair, pyEq, strHead1, Except.map]
        decide)
      (by simp)

/-- Claim C3 (code behaviour at the failing input): with candidate production
records at 00:59 (instant `3540`) and 02:00 (instant `7200`) and target
01:00 (instant `3600`), the target narrowing returns the 02:00 record even
though the 00:59 candidate is strictly closer in absolute time (60 s vs
3600 s): the key is `timedelta.seconds`, which wraps the negative
one-minute delta to 86340 s instead of taking the absolute total distance. -/
theorem closest_selection_wraps_negative_delta :
    fetch_production "FR" closestBugDocs 1000000 (some 3600)
      = .ok (some [⟨"FR", 7200, ⟨none, none, none, none, some 20, none, none,
          none, none, none⟩, none, "entsoe.eu"⟩])
    ∧ fetch_production "FR" closestBugDocs 1000000 none
      = .ok (some [⟨"FR", 7200, ⟨none, none, none, none, some 20, none, none,
          none, none, none⟩, none, "entsoe.eu"⟩,
        ⟨"FR", 3540, ⟨none, none, none, none, some 10, none, none, none, none,
          none⟩, none, "entsoe.eu"⟩])
    ∧ closest_in_time_key 3540 3600 = 86340
    ∧ closest_in_time_key 7200 3600 = 3600
    ∧ |(3540 : Int) - 3600| < |(7200 : Int) - 3600| := by
  refine ⟨by rfl, by rfl, by decide, by decide, by decide⟩

/-- Claim C1 (code behaviour at the failing input): calling
`fetch_exchange('AT', 'BE')` (already in sorted order) with an inbound
flow into AT of `100` at instant `3600` emits the record key
`"AT->BE"` with net flow `-100`: the guard `zone_key1[0] ==
sorted_zone_keys` compares a one-character string with a list, which is
`False` for every input, so the solver always negates, and import into the
lexicographically first zone is reported negative, not positive. -/
theorem exchange_sign_always_negated :
    fetch_exchange "AT" "BE" (some importDoc100) (some []) 7200 none
      = .ok (some [⟨"AT->BE", 3600, -100, "entsoe.eu"⟩])
    ∧ (∀ s l, pyEq (.pstr s) (.plist l) = false)
    ∧ (-100 : ℚ) ≠ 100 := by
  refine ⟨?_, fun s l => rfl, by norm_num⟩
  simp [fetch_exchange, exchangeHashmap, parse_exchange, exchSeriesPoints,
    exceptMapList, datetime_from_position, findPTMinutes, natOfDigits,
    importDoc100, mergePoints, mergePoint, pyDictKeys, pyDictGet, sortedByKey,
    insertByKey, exchangeRecords, exchangeDates, sortedPair, pyEq, strHead1,
    Except.map]
  decide
